import Mathlib

/-!
Verification of the hOCR markup parser and offset text navigator of the
nvda-ocr repository.

The repository contains two versions of the parser:
* `addon/globalPlugins/ocr/__init__.py` (word class marker `ocr_word`,
  no semicolon handling in the title attribute) — embedded below with
  the `Init` suffix;
* `addon/globalPlugins/ocr.py` (word class marker `ocrx_word`, with
  the semicolon split of the title attribute) — embedded below with the
  `Flat` suffix.

The parser is callback-driven (expat SAX events).  XML tokenization is
external library behaviour; we embed the event stream delivered to the
handlers (`XmlEvent`) and the handlers themselves, translated line by
line from the Python source.  Both files call `parser.Parse(xml)` with
expat's default `isfinal=False` and never issue the final call, so
expat raises only on a markup error inside the consumed data; a merely
truncated document is accepted silently and its prefix events are
delivered.  Python exceptions are modelled with `Except PyError`.
-/

namespace NvdaOcr

/-! ### Python built-in behaviour used by the source -/

/-- Whitespace characters recognized by Python `str.isspace` (ASCII part). -/
def pyIsSpaceChar (c : Char) : Bool :=
  c = ' ' || c = '\t' || c = '\n' || c = '\r' || c = '\x0b' || c = '\x0c'

/-- Python `str.isspace()`: the string is nonempty and all characters are
whitespace. -/
def pyIsSpace (s : String) : Bool :=
  !s.toList.isEmpty && s.toList.all pyIsSpaceChar

/-- Helper for `pySplit`: accumulates the current field (reversed) while
scanning the character list. -/
def pySplitAux (sep : Char) : List Char → List Char → List (List Char)
  | [], acc => [acc.reverse]
  | c :: cs, acc =>
    if c = sep then acc.reverse :: pySplitAux sep cs []
    else pySplitAux sep cs (c :: acc)

/-- Python `str.split(sep)` for a single-character separator: keeps empty
fields, always returns at least one field. -/
def pySplit (s : String) (sep : Char) : List String :=
  (pySplitAux sep s.toList []).map String.mk

/-- Digit-string accumulator for `pyIntParse`. -/
def digitsToNatAux : List Char → Nat → Option Nat
  | [], acc => some acc
  | c :: cs, acc =>
    if c.isDigit then digitsToNatAux cs (acc * 10 + (c.toNat - '0'.toNat))
    else none

/-- Python `int(str)`: optional surrounding whitespace, optional sign,
then a nonempty run of decimal digits; anything else raises ValueError
(modelled by `none`). -/
def pyIntParse (s : String) : Option ℤ :=
  let t := ((s.toList.dropWhile pyIsSpaceChar).reverse.dropWhile pyIsSpaceChar).reverse
  match t with
  | [] => none
  | '-' :: rest =>
    match rest with
    | [] => none
    | _ => (digitsToNatAux rest 0).map (fun n => -(n : ℤ))
  | '+' :: rest =>
    match rest with
    | [] => none
    | _ => (digitsToNatAux rest 0).map (fun n => (n : ℤ))
  | cs => (digitsToNatAux cs 0).map (fun n => (n : ℤ))

/-- Python `int(float)` truncates toward zero; the coordinates are exact
rationals in this embedding. -/
def pyTruncInt (q : ℚ) : ℤ :=
  if q < 0 then -((-q).floor) else q.floor

/-- Normalization of one Python slice index against length `n`:
negative indices count from the end, out-of-range indices are clamped. -/
def pySliceIdx (n i : ℤ) : ℤ :=
  if i < 0 then max (i + n) 0 else min i n

/-- Python string slicing `s[a:b]` with int arguments: both indices are
normalized, then the characters in between are taken; never an error. -/
def pySlice (s : String) (a b : ℤ) : String :=
  String.mk ((s.toList.drop (pySliceIdx (s.length : ℤ) a).toNat).take
    (pySliceIdx (s.length : ℤ) b - pySliceIdx (s.length : ℤ) a).toNat)

/-! ### Data model (from the source) -/

/-- Constant `IMAGE_RESIZE_FACTOR = 2` in both source files. -/
def IMAGE_RESIZE_FACTOR : ℚ := 2

/-- The coordinate computed for a word:
`self.leftCoordOffset + int(l) / IMAGE_RESIZE_FACTOR` (exact rational
arithmetic; Python evaluates it in floating point, which is exact for
halves of integers).  The rational is constructed with `mkRat` so that
it evaluates inside the kernel; `wordCoord_eq` below proves it equal to
the verbatim source expression. -/
def wordCoord (origin : ℚ) (v : ℤ) : ℚ :=
  mkRat (2 * origin.num + v * (origin.den : ℤ)) (2 * origin.den)

/-- Source: `OcrWord = namedtuple("OcrWord", ("offset", "left", "top"))`. -/
structure OcrWord where
  offset : Nat
  left : ℚ
  top : ℚ
deriving DecidableEq

/-- Python exceptions that the embedded code can raise.
`expatError` models `xml.parsers.expat.ExpatError` (the spec calls it
MalformedMarkupError); `attributeError` models the `AttributeError`
raised by `None.split` when the title attribute is missing (the spec
calls it MissingAttributeError); `keyError` models `attrs["class"]` on a
missing key; `valueError` models tuple-unpack/int() failures;
`nameError` models the `UnboundLocalError` for a name never assigned. -/
inductive PyError where
  | expatError
  | keyError
  | attributeError
  | valueError
  | nameError
deriving DecidableEq

deriving instance DecidableEq for Except

/-- One SAX callback event as delivered by expat to the handlers. -/
inductive XmlEvent where
  | startElement (tag : String) (attrs : List (String × String))
  | endElement (tag : String)
  | charData (data : String)

/-- The mutable state of `HocrParser` during the parse:
`_textList`, `textLen`, `lines`, `words`, `_hasBlockHadContent`. -/
structure ParserState where
  textList : List String
  textLen : Nat
  lines : List Nat
  words : List OcrWord
  hasBlockHadContent : Bool
deriving DecidableEq

/-- The state set up in `HocrParser.__init__` before `parser.Parse(xml)`. -/
def initState : ParserState := ⟨[], 0, [], [], false⟩

/-- The constructor arguments `leftCoordOffset`, `topCoordOffset`. -/
structure Params where
  leftCoordOffset : ℚ
  topCoordOffset : ℚ

/-! ### The SAX handlers (translated from the source) -/

/-- Handler `HocrParser._charData` (identical in both source files). -/
def _charData (s : ParserState) (data : String) : ParserState :=
  if pyIsSpace data then
    if !s.hasBlockHadContent then
      -- Strip whitespace at the start of a block.
      s
    -- All other whitespace should be collapsed to a single space
    -- (the collapsed data is the one-character string " ").
    else if s.textList.getLast? = some " " then
      s
    else
      { s with textList := s.textList ++ [" "], textLen := s.textLen + 1,
               hasBlockHadContent := true }
  else
    { s with textList := s.textList ++ [data], textLen := s.textLen + data.length,
             hasBlockHadContent := true }

/-- The word branch of the `ocr/__init__.py` handler: get the
coordinates from the bbox info specified in the title attribute —
`prefix, l, t, r, b = title.split(" ")` (ValueError unless exactly five
fields), `int(l)` and `int(t)`, then append the word record. -/
def initWordTitle (P : Params) (s : ParserState) (title : String) :
    Except PyError ParserState :=
  match pySplit title ' ' with
  | [_pfx, l, t, _r, _b] =>
    match pyIntParse l, pyIntParse t with
    | some li, some ti =>
      .ok { s with words := s.words ++
        [⟨s.textLen, wordCoord P.leftCoordOffset li,
                     wordCoord P.topCoordOffset ti⟩] }
    | _, _ => .error .valueError
  | _ => .error .valueError

/-- The word branch of the `ocr.py` handler: first cut non-bbox info if
present (`titleBbox = title.split(";")[0]`), then proceed as above. -/
def flatWordTitle (P : Params) (s : ParserState) (title : String) :
    Except PyError ParserState :=
  match pySplit ((pySplit title ';').headI) ' ' with
  | [_pfx, l, t, _r, _b] =>
    match pyIntParse l, pyIntParse t with
    | some li, some ti =>
      .ok { s with words := s.words ++
        [⟨s.textLen, wordCoord P.leftCoordOffset li,
                     wordCoord P.topCoordOffset ti⟩] }
    | _, _ => .error .valueError
  | _ => .error .valueError

/-- Handler `HocrParser._startElement` from `addon/globalPlugins/ocr/__init__.py`:
word marker `ocr_word`, the title attribute is split on spaces directly. -/
def startElementInit (P : Params) (s : ParserState) (tag : String)
    (attrs : List (String × String)) : Except PyError ParserState :=
  if tag = "p" ∨ tag = "div" then
    .ok { s with hasBlockHadContent := false }
  else if tag = "span" then
    match attrs.lookup "class" with
    | none => .error .keyError
    | some cls =>
      if cls = "ocr_line" then
        .ok { s with lines := s.lines ++ [s.textLen] }
      else if cls = "ocr_word" then
        match attrs.lookup "title" with
        | none => .error .attributeError
        | some title => initWordTitle P s title
      else
        .ok s
  else
    .ok s

/-- Handler `HocrParser._startElement` from `addon/globalPlugins/ocr.py`:
word marker `ocrx_word`, with `titleBbox = title.split(";")[0]`. -/
def startElementFlat (P : Params) (s : ParserState) (tag : String)
    (attrs : List (String × String)) : Except PyError ParserState :=
  if tag = "p" ∨ tag = "div" then
    .ok { s with hasBlockHadContent := false }
  else if tag = "span" then
    match attrs.lookup "class" with
    | none => .error .keyError
    | some cls =>
      if cls = "ocr_line" then
        .ok { s with lines := s.lines ++ [s.textLen] }
      else if cls = "ocrx_word" then
        match attrs.lookup "title" with
        | none => .error .attributeError
        | some title => flatWordTitle P s title
      else
        .ok s
  else
    .ok s

/-- Dispatch one SAX event to the handlers (`_endElement` is a no-op). -/
def step (se : ParserState → String → List (String × String) → Except PyError ParserState)
    (s : ParserState) : XmlEvent → Except PyError ParserState
  | .startElement tag attrs => se s tag attrs
  | .endElement _ => .ok s
  | .charData data => .ok (_charData s data)

/-- Run the handlers over the event stream; the first exception aborts
the parse (expat stops calling handlers once one raises). -/
def runEvents (se : ParserState → String → List (String × String) → Except PyError ParserState) :
    ParserState → List XmlEvent → Except PyError ParserState
  | s, [] => .ok s
  | s, ev :: evs =>
    match step se s ev with
    | .error e => .error e
    | .ok s' => runEvents se s' evs

/-- The fields of a fully constructed `HocrParser` object (the
Recognition Result): `leftCoordOffset`, `topCoordOffset`, `text`,
`textLen`, `lines`, `words`. -/
structure HocrParser where
  leftCoordOffset : ℚ
  topCoordOffset : ℚ
  text : String
  textLen : Nat
  lines : List Nat
  words : List OcrWord
deriving DecidableEq

/-- Constructor `HocrParser.__init__` for the `ocr/__init__.py` version.  The `xml`
argument models the outcome of `parser.Parse(xml)`, called with expat's
default `isfinal=False`: `.error ()` when expat raises on a markup
error inside the consumed data, `.ok events` for the delivered event
stream otherwise — which, because the final parse call is never
issued, includes truncated non-well-formed documents whose consumed
prefix is error-free.  On success
`self.text = "".join(self._textList)`. -/
def hocrParseInit (xml : Except Unit (List XmlEvent)) (leftCoordOffset topCoordOffset : ℚ) :
    Except PyError HocrParser :=
  match xml with
  | .error _ => .error .expatError
  | .ok events =>
    match runEvents (startElementInit ⟨leftCoordOffset, topCoordOffset⟩) initState events with
    | .error e => .error e
    | .ok s =>
      .ok ⟨leftCoordOffset, topCoordOffset, String.join s.textList, s.textLen, s.lines, s.words⟩

/-- Constructor `HocrParser.__init__` for the `ocr.py` version; the
`xml` argument is read as for `hocrParseInit` (same `isfinal=False`
call pattern). -/
def hocrParseFlat (xml : Except Unit (List XmlEvent)) (leftCoordOffset topCoordOffset : ℚ) :
    Except PyError HocrParser :=
  match xml with
  | .error _ => .error .expatError
  | .ok events =>
    match runEvents (startElementFlat ⟨leftCoordOffset, topCoordOffset⟩) initState events with
    | .error e => .error e
    | .ok s =>
      .ok ⟨leftCoordOffset, topCoordOffset, String.join s.textList, s.textLen, s.lines, s.words⟩

/-! ### `OcrTextInfo` navigator (identical in both source files) -/

/-- Method `OcrTextInfo._getTextRange`: `self._parser.text[start:end]`. -/
def _getTextRange (p : HocrParser) (start stop : ℤ) : String :=
  pySlice p.text start stop

/-- Method `OcrTextInfo._getStoryLength`: `self._parser.textLen`. -/
def _getStoryLength (p : HocrParser) : Nat :=
  p.textLen

/-- The scan loop of `_getLineOffsets`:
`for end in lines: if end > offset: return (start, end); start = end`. -/
def lineOffsetsGo (textLen offset start : Nat) : List Nat → Nat × Nat
  | [] => (start, textLen)
  | e :: rest => if e > offset then (start, e) else lineOffsetsGo textLen offset e rest

/-- Method `OcrTextInfo._getLineOffsets`. -/
def _getLineOffsets (p : HocrParser) (offset : Nat) : Nat × Nat :=
  lineOffsetsGo p.textLen offset 0 p.lines

/-- The scan loop of `_getWordOffsets`. -/
def wordOffsetsGo (textLen offset start : Nat) : List OcrWord → Nat × Nat
  | [] => (start, textLen)
  | w :: rest =>
    if w.offset > offset then (start, w.offset) else wordOffsetsGo textLen offset w.offset rest

/-- Method `OcrTextInfo._getWordOffsets`. -/
def _getWordOffsets (p : HocrParser) (offset : Nat) : Nat × Nat :=
  wordOffsetsGo p.textLen offset 0 p.words

/-- The loop of `_getPointFromOffset`, with the Python for-else
faithfully encoded: `acc` is the variable `word`, unassigned at entry
(`none`).  Exhausting the word list without `break` runs the `else`
branch, which returns the capture origin; a `break` falls through to
`return Point(int(word.left), int(word.top))`, raising
`UnboundLocalError` when `word` was never assigned. -/
def pointGo (p : HocrParser) (offset : Nat) :
    Option OcrWord → List OcrWord → Except PyError (ℤ × ℤ)
  | _, [] =>
    -- No matching word, so use the top left of the object.
    .ok (pyTruncInt p.leftCoordOffset, pyTruncInt p.topCoordOffset)
  | acc, w :: rest =>
    if w.offset > offset then
      match acc with
      | none => .error .nameError
      | some word => .ok (pyTruncInt word.left, pyTruncInt word.top)
    else
      pointGo p offset (some w) rest

/-- Method `OcrTextInfo._getPointFromOffset`. -/
def _getPointFromOffset (p : HocrParser) (offset : Nat) : Except PyError (ℤ × ℤ) :=
  pointGo p offset none p.words

/-! ### Concrete documents used by the claims -/

/-- The event stream of the minimal two-word example document from the
spec: one div, one line, word spans titled `bbox 10 20 30 40` and
`bbox 50 20 70 40` with texts `Hi` and `there`, whitespace between the
word spans. -/
def specExampleEvents : List XmlEvent :=
  [ .startElement "div" [],
    .startElement "span" [("class", "ocr_line")],
    .startElement "span" [("class", "ocr_word"), ("title", "bbox 10 20 30 40")],
    .charData "Hi",
    .endElement "span",
    .charData " ",
    .startElement "span" [("class", "ocr_word"), ("title", "bbox 50 20 70 40")],
    .charData "there",
    .endElement "span",
    .endElement "span",
    .endElement "div" ]

/-! ### Helper lemmas -/

/-- Lemma: `wordCoord` computes exactly the source expression
`origin + v / IMAGE_RESIZE_FACTOR`. -/
theorem wordCoord_eq (origin : ℚ) (v : ℤ) :
    wordCoord origin v = origin + (v : ℚ) / IMAGE_RESIZE_FACTOR := by
  have hden : ((origin.den : ℚ)) ≠ 0 := by
    exact_mod_cast origin.den_nz
  have hnum : (origin.num : ℚ) = origin * (origin.den : ℚ) :=
    (div_eq_iff hden).mp (Rat.num_div_den origin)
  unfold wordCoord IMAGE_RESIZE_FACTOR
  rw [Rat.mkRat_eq_div]
  push_cast
  field_simp
  rw [hnum]
  ring

theorem getLast?_mem_list {α : Type _} {l : List α} {x : α}
    (h : l.getLast? = some x) : x ∈ l := by
  obtain ⟨hne, rfl⟩ := List.mem_getLast?_eq_getLast (show x ∈ l.getLast? by simp [h])
  exact List.getLast_mem hne

/-- Processing a concatenated event stream processes the first part, then
(if no exception was raised) the second. -/
theorem runEvents_append
    (se : ParserState → String → List (String × String) → Except PyError ParserState)
    (s : ParserState) (xs ys : List XmlEvent) :
    runEvents se s (xs ++ ys) =
      match runEvents se s xs with
      | .error e => .error e
      | .ok s1 => runEvents se s1 ys := by
  induction xs generalizing s with
  | nil => simp [runEvents]
  | cons ev evs ih =>
    simp only [List.cons_append, runEvents]
    cases hstep : step se s ev with
    | error e => simp
    | ok s1 => simp [ih s1]

/-- Shape of a successful word-branch transition of the `Init` handler:
only the word list changes. -/
theorem initWordTitle_shape {P : Params} {s : ParserState} {title : String}
    {s' : ParserState} (h : initWordTitle P s title = .ok s') :
    s'.textLen = s.textLen ∧ s'.textList = s.textList ∧ s'.lines = s.lines := by
  unfold initWordTitle at h
  repeat' split at h
  all_goals first
    | exact Except.noConfusion h
    | (cases h; exact ⟨rfl, rfl, rfl⟩)

/-- Shape of a successful word-branch transition of the `Flat` handler. -/
theorem flatWordTitle_shape {P : Params} {s : ParserState} {title : String}
    {s' : ParserState} (h : flatWordTitle P s title = .ok s') :
    s'.textLen = s.textLen ∧ s'.textList = s.textList ∧ s'.lines = s.lines := by
  unfold flatWordTitle at h
  repeat' split at h
  all_goals first
    | exact Except.noConfusion h
    | (cases h; exact ⟨rfl, rfl, rfl⟩)

/-- Shape of any successful `startElementInit` transition: the text
buffer and its length are untouched, and the line list either stays or
gets the current length appended. -/
theorem startElementInit_ok_shape {P : Params} {s : ParserState} {tag : String}
    {attrs : List (String × String)} {s' : ParserState}
    (h : startElementInit P s tag attrs = .ok s') :
    s'.textLen = s.textLen ∧ s'.textList = s.textList ∧
      (s'.lines = s.lines ∨ s'.lines = s.lines ++ [s.textLen]) := by
  unfold startElementInit at h
  repeat' split at h
  all_goals first
    | exact Except.noConfusion h
    | (cases h; exact ⟨rfl, rfl, Or.inl rfl⟩)
    | (cases h; exact ⟨rfl, rfl, Or.inr rfl⟩)
    | (obtain ⟨h1, h2, h3⟩ := initWordTitle_shape h; exact ⟨h1, h2, Or.inl h3⟩)

/-- Shape of any successful `startElementFlat` transition. -/
theorem startElementFlat_ok_shape {P : Params} {s : ParserState} {tag : String}
    {attrs : List (String × String)} {s' : ParserState}
    (h : startElementFlat P s tag attrs = .ok s') :
    s'.textLen = s.textLen ∧ s'.textList = s.textList ∧
      (s'.lines = s.lines ∨ s'.lines = s.lines ++ [s.textLen]) := by
  unfold startElementFlat at h
  repeat' split at h
  all_goals first
    | exact Except.noConfusion h
    | (cases h; exact ⟨rfl, rfl, Or.inl rfl⟩)
    | (cases h; exact ⟨rfl, rfl, Or.inr rfl⟩)
    | (obtain ⟨h1, h2, h3⟩ := flatWordTitle_shape h; exact ⟨h1, h2, Or.inl h3⟩)

/-- Shape of a `_charData` transition: the line list is untouched, the
length never decreases, and the buffer either stays, gets one collapsed
space (only when its last fragment is not a space), or gets the data
appended verbatim (only when the data is not pure whitespace). -/
theorem _charData_shape (s : ParserState) (data : String) :
    (_charData s data).lines = s.lines ∧ s.textLen ≤ (_charData s data).textLen ∧
      ((_charData s data).textList = s.textList ∨
       ((_charData s data).textList = s.textList ++ [" "] ∧
         s.textList.getLast? ≠ some " ") ∨
       ((_charData s data).textList = s.textList ++ [data] ∧ pyIsSpace data = false)) := by
  unfold _charData
  split
  · split
    · exact ⟨rfl, le_refl _, Or.inl rfl⟩
    · split
      · exact ⟨rfl, le_refl _, Or.inl rfl⟩
      · next hlast => exact ⟨rfl, Nat.le_succ _, Or.inr (Or.inl ⟨rfl, hlast⟩)⟩
  · next hsp =>
    exact ⟨rfl, Nat.le_add_right _ _,
      Or.inr (Or.inr ⟨rfl, Bool.not_eq_true _ ▸ eq_false_of_ne_true hsp⟩)⟩

/-- Generic invariant-preservation over an event stream. -/
theorem runEvents_preserve {Q : ParserState → Prop}
    {se : ParserState → String → List (String × String) → Except PyError ParserState}
    (hse : ∀ s tag attrs s', se s tag attrs = .ok s' → Q s → Q s')
    (hcd : ∀ s data, Q s → Q (_charData s data)) :
    ∀ (events : List XmlEvent) (s s' : ParserState),
      runEvents se s events = .ok s' → Q s → Q s' := by
  intro events
  induction events with
  | nil =>
    intro s s' h hQ
    unfold runEvents at h
    cases h
    exact hQ
  | cons ev evs ih =>
    intro s s' h hQ
    unfold runEvents at h
    cases hstep : step se s ev with
    | error e => rw [hstep] at h; exact Except.noConfusion h
    | ok s1 =>
      rw [hstep] at h
      refine ih s1 s' h ?_
      cases ev with
      | startElement tag attrs =>
        exact hse s tag attrs s1 (by simpa [step] using hstep) hQ
      | endElement tag =>
        have : s = s1 := by simpa [step] using hstep
        exact this ▸ hQ
      | charData data =>
        have : _charData s data = s1 := by simpa [step] using hstep
        exact this ▸ hcd s data hQ

/-- A word-class span without a title attribute makes the `Init` handler
raise (None has no split method). -/
theorem startElementInit_missing_title {P : Params} {s : ParserState}
    {attrs : List (String × String)}
    (hc : attrs.lookup "class" = some "ocr_word")
    (ht : attrs.lookup "title" = none) :
    startElementInit P s "span" attrs = .error .attributeError := by
  unfold startElementInit
  rw [hc, ht]
  rfl

/-- A span without a class attribute makes the `Init` handler raise a
KeyError. -/
theorem startElementInit_missing_class {P : Params} {s : ParserState}
    {attrs : List (String × String)}
    (hc : attrs.lookup "class" = none) :
    startElementInit P s "span" attrs = .error .keyError := by
  unfold startElementInit
  rw [hc]
  rfl

/-- A span without a class attribute makes the `Flat` handler raise a
KeyError. -/
theorem startElementFlat_missing_class {P : Params} {s : ParserState}
    {attrs : List (String × String)}
    (hc : attrs.lookup "class" = none) :
    startElementFlat P s "span" attrs = .error .keyError := by
  unfold startElementFlat
  rw [hc]
  rfl

/-! ### Claims -/

/-- Claim C1 (code bug, evaluation at the failing input): on the spec
example document (origin (0,0), words at offsets 0 and 3 with
coordinates (5,10) and (25,10)), pointAtOffset(3) returns the capture
origin (0,0), not (25,10) as the claim states: the Python for-else's
else branch runs whenever no word offset exceeds the queried offset, so
the last word is ignored.  Moreover an offset strictly before the first
word raises UnboundLocalError instead of returning the origin. -/
theorem claim1_pointAtOffset_bug :
    hocrParseInit (.ok specExampleEvents) 0 0 =
      .ok ⟨0, 0, "Hi there", 8, [0], [⟨0, 5, 10⟩, ⟨3, 25, 10⟩]⟩ ∧
    _getPointFromOffset ⟨0, 0, "Hi there", 8, [0], [⟨0, 5, 10⟩, ⟨3, 25, 10⟩]⟩ 3 = .ok (0, 0) ∧
    _getPointFromOffset ⟨0, 0, "Hi there", 8, [0], [⟨5, 25, 10⟩]⟩ 2 = .error .nameError := by
  refine ⟨by decide, by decide, by decide⟩

/-- Claim C2 counterexample: a document whose two lines start before any
text was accumulated produces lineBoundaries [0, 0]: not strictly
increasing, containing an entry outside (0, textLength], and recording a
boundary for the very first line. -/
theorem claim2_counterexample :
    hocrParseInit (.ok [.startElement "span" [("class", "ocr_line")],
        .startElement "span" [("class", "ocr_line")], .charData "x"]) 0 0 =
      .ok ⟨0, 0, "x", 1, [0, 0], []⟩ ∧
    ¬ ([0, 0] : List ℕ).Chain' (· < ·) ∧
    ¬ (∀ b ∈ ([0, 0] : List ℕ), 0 < b) := by
  refine ⟨by decide, by simp [List.chain'_cons], by decide⟩

/-- Claim C2 (amended): every line-start — including the very first —
pushes the current running length onto the line list, and for every
successfully parsed event stream the resulting line boundaries are
monotonically non-decreasing with every entry at most textLen (hence
within [0, textLength]). -/
theorem claim2_lineBoundaries :
    (∀ (P : Params) (st : ParserState) (attrs : List (String × String)),
      attrs.lookup "class" = some "ocr_line" →
      startElementInit P st "span" attrs = .ok { st with lines := st.lines ++ [st.textLen] }) ∧
    (∀ (P : Params) (events : List XmlEvent) (s : ParserState),
      runEvents (startElementInit P) initState events = .ok s →
      s.lines.Chain' (· ≤ ·) ∧ ∀ b ∈ s.lines, b ≤ s.textLen) := by
  constructor
  · intro P st attrs hc
    unfold startElementInit
    rw [hc]
    rfl
  · intro P events s h
    refine runEvents_preserve (Q := fun st =>
        st.lines.Chain' (· ≤ ·) ∧ ∀ b ∈ st.lines, b ≤ st.textLen) ?_ ?_ events initState s h
        (by simp [initState])
    · intro st tag attrs st' hok hQ
      obtain ⟨hlen, -, hlines⟩ := startElementInit_ok_shape hok
      rcases hlines with hsame | happ
      · exact ⟨hsame ▸ hQ.1, fun b hb => hlen ▸ hQ.2 b (hsame ▸ hb)⟩
      · constructor
        · rw [happ, List.chain'_append]
          refine ⟨hQ.1, List.chain'_singleton _, ?_⟩
          intro x hx y hy
          simp only [List.head?_cons, Option.mem_def, Option.some.injEq] at hy
          subst hy
          exact hQ.2 x (getLast?_mem_list (Option.mem_def.mp hx))
        · intro b hb
          rw [happ, List.mem_append] at hb
          rcases hb with hb | hb
          · exact hlen ▸ hQ.2 b hb
          · simp only [List.mem_singleton] at hb
            exact hlen ▸ hb.le
    · intro st data hQ
      obtain ⟨hlines, hlen, -⟩ := _charData_shape st data
      exact ⟨hlines ▸ hQ.1, fun b hb => le_trans (hQ.2 b (hlines ▸ hb)) hlen⟩

/-- Claim C3 counterexample: a character-data run that mixes
non-whitespace with internal whitespace is appended verbatim, so
"a\n\n  b" delivered as one data event parses to "a\n\n  b", not "a b";
even when expat splits the run at newlines, the "  b" fragment keeps its
leading spaces and the text is "a   b", still not "a b". -/
theorem claim3_counterexample :
    hocrParseInit (.ok [.charData "a\n\n  b"]) 0 0 = .ok ⟨0, 0, "a\n\n  b", 6, [], []⟩ ∧
    ("a\n\n  b" : String) ≠ "a b" ∧
    hocrParseInit (.ok [.charData "a", .charData "\n", .charData "\n", .charData "  b"]) 0 0 =
      .ok ⟨0, 0, "a   b", 5, [], []⟩ ∧
    ("a   b" : String) ≠ "a b" := by
  refine ⟨by decide, by decide, by decide, by decide⟩

/-- Claim C3 (amended): a character-data event that is entirely
whitespace is discarded before the block has visible content, collapsed
to a single space otherwise (skipped when the last appended fragment is
exactly a space); a data event containing any non-whitespace character
is appended verbatim, internal whitespace included. -/
theorem claim3_charData : ∀ (s : ParserState) (data : String),
    (pyIsSpace data = true → s.hasBlockHadContent = false → _charData s data = s) ∧
    (pyIsSpace data = true → s.hasBlockHadContent = true →
      s.textList.getLast? = some " " → _charData s data = s) ∧
    (pyIsSpace data = true → s.hasBlockHadContent = true →
      s.textList.getLast? ≠ some " " →
      _charData s data =
        { s with textList := s.textList ++ [" "], textLen := s.textLen + 1,
                 hasBlockHadContent := true }) ∧
    (pyIsSpace data = false →
      _charData s data =
        { s with textList := s.textList ++ [data], textLen := s.textLen + data.length,
                 hasBlockHadContent := true }) := by
  intro s data
  refine ⟨?_, ?_, ?_, ?_⟩
  · intro h1 h2
    simp [_charData, h1, h2]
  · intro h1 h2 h3
    simp [_charData, h1, h2, h3]
  · intro h1 h2 h3
    simp [_charData, h1, h2, h3]
  · intro h1
    simp [_charData, h1]

/-- Claim C3 witness: a leading whitespace-only event in a fresh block
is discarded. -/
theorem claim3_witness :
    pyIsSpace " " = true ∧ _charData initState " " = initState :=
  ⟨by decide, (claim3_charData initState " ").1 (by decide) rfl⟩

/-- Claim C4 counterexample: two documents identical except for the
word class marker parse to different Recognition Results under the
`ocr/__init__.py` parser — the `ocr_word` document records a word, the
`ocrx_word` document records none. -/
theorem claim4_counterexample :
    hocrParseInit (.ok [.startElement "span"
        [("class", "ocr_word"), ("title", "bbox 10 20 30 40")], .charData "Hi"]) 0 0 =
      .ok ⟨0, 0, "Hi", 2, [], [⟨0, 5, 10⟩]⟩ ∧
    hocrParseInit (.ok [.startElement "span"
        [("class", "ocrx_word"), ("title", "bbox 10 20 30 40")], .charData "Hi"]) 0 0 =
      .ok ⟨0, 0, "Hi", 2, [], []⟩ ∧
    ([⟨0, 5, 10⟩] : List OcrWord) ≠ [] := by
  refine ⟨by decide, by decide, by decide⟩

/-- Claim C4 (amended): each parser version accepts exactly one word
class marker and silently skips the other: `ocr/__init__.py` ignores
`ocrx_word` spans and `ocr.py` ignores `ocr_word` spans, leaving the
state unchanged. -/
theorem claim4_wordClassVariants :
    (∀ (P : Params) (s : ParserState) (attrs : List (String × String)),
      attrs.lookup "class" = some "ocrx_word" → startElementInit P s "span" attrs = .ok s) ∧
    (∀ (P : Params) (s : ParserState) (attrs : List (String × String)),
      attrs.lookup "class" = some "ocr_word" → startElementFlat P s "span" attrs = .ok s) := by
  constructor
  · intro P s attrs hc
    unfold startElementInit
    rw [hc]
    rfl
  · intro P s attrs hc
    unfold startElementFlat
    rw [hc]
    rfl

/-- Claim C4 witness: concrete spans of the other variant are skipped by
each parser version. -/
theorem claim4_witness :
    startElementInit ⟨0, 0⟩ initState "span" [("class", "ocrx_word")] = .ok initState ∧
    startElementFlat ⟨0, 0⟩ initState "span" [("class", "ocr_word")] = .ok initState :=
  ⟨claim4_wordClassVariants.1 ⟨0, 0⟩ initState _ rfl,
   claim4_wordClassVariants.2 ⟨0, 0⟩ initState _ rfl⟩

theorem pySplitAux_of_not_mem (sep : Char) :
    ∀ (l acc : List Char), sep ∉ l → pySplitAux sep l acc = [acc.reverse ++ l] := by
  intro l
  induction l with
  | nil =>
    intro acc h
    simp [pySplitAux]
  | cons c cs ih =>
    intro acc h
    have hc : ¬ c = sep := fun hh => h (hh ▸ List.mem_cons_self c cs)
    simp only [pySplitAux, if_neg hc]
    rw [ih (c :: acc) (fun hm => h (List.mem_cons_of_mem c hm))]
    simp

theorem pySplitAux_append_sep (sep : Char) :
    ∀ (l acc r : List Char), sep ∉ l →
      pySplitAux sep (l ++ sep :: r) acc = (acc.reverse ++ l) :: pySplitAux sep r [] := by
  intro l
  induction l with
  | nil =>
    intro acc r h
    simp [pySplitAux]
  | cons c cs ih =>
    intro acc r h
    have hc : ¬ c = sep := fun hh => h (hh ▸ List.mem_cons_self c cs)
    simp only [List.cons_append, pySplitAux, if_neg hc, List.append_eq]
    rw [ih (c :: acc) r (fun hm => h (List.mem_cons_of_mem c hm))]
    simp

/-- Claim C5 counterexample: the `ocr/__init__.py` parser does not strip
the semicolon metadata, so a word whose title carries a suffix makes the
five-way unpack of `title.split(" ")` raise a ValueError: the parse
fails instead of succeeding with the same coordinates. -/
theorem claim5_counterexample :
    hocrParseInit (.ok [.startElement "span"
        [("class", "ocr_word"), ("title", "bbox 50 20 70 40; x_wconf 90")]]) 0 0 =
      .error .valueError := by
  decide

/-- Claim C5 (amended): in the `ocr.py` parser the semicolon-separated
suffix of the title attribute is discarded before numeric parsing, so
the word branch processes a title consisting of the bare descriptor
followed by ";" and any metadata exactly like the bare descriptor
alone; in the `ocr/__init__.py` parser, which lacks the split, the
suffixed title makes the parse fail (see the counterexample). -/
theorem claim5_metadataSuffix (P : Params) (s : ParserState) (base rest : String)
    (hb : ';' ∉ base.toList) :
    flatWordTitle P s (base ++ ";" ++ rest) = flatWordTitle P s base := by
  have hcat : (base ++ ";" ++ rest).toList = base.toList ++ ';' :: rest.toList := by
    show (base ++ ";" ++ rest).data = base.data ++ ';' :: rest.data
    rw [String.data_append, String.data_append]
    show (base.data ++ [';']) ++ rest.data = _
    rw [List.append_assoc]
    rfl
  have hsplit1 : (pySplit (base ++ ";" ++ rest) ';').headI = base := by
    unfold pySplit
    rw [hcat, pySplitAux_append_sep ';' base.toList [] rest.toList hb]
    simp
  have hsplit2 : (pySplit base ';').headI = base := by
    unfold pySplit
    rw [pySplitAux_of_not_mem ';' base.toList [] hb]
    simp
  unfold flatWordTitle
  rw [hsplit1, hsplit2]

/-- Claim C5 witness: the concrete suffixed and bare titles from the
spec example are processed identically by the `ocr.py` word branch. -/
theorem claim5_witness :
    (';' ∉ ("bbox 50 20 70 40" : String).toList) ∧
    flatWordTitle ⟨0, 0⟩ initState "bbox 50 20 70 40; x_wconf 90" =
      flatWordTitle ⟨0, 0⟩ initState "bbox 50 20 70 40" :=
  ⟨by decide, claim5_metadataSuffix ⟨0, 0⟩ initState "bbox 50 20 70 40" " x_wconf 90"
    (by decide)⟩

/-- Claim C2 witness: the first line pushes boundary 0, and the
invariant instantiated on the one-line document with text "x". -/
theorem claim2_witness :
    startElementInit ⟨0, 0⟩ initState "span" [("class", "ocr_line")] =
      .ok { initState with lines := initState.lines ++ [initState.textLen] } ∧
    (([0] : List ℕ).Chain' (· ≤ ·) ∧ ∀ b ∈ ([0] : List ℕ), b ≤ (1 : ℕ)) :=
  ⟨claim2_lineBoundaries.1 ⟨0, 0⟩ initState _ rfl,
   claim2_lineBoundaries.2 ⟨0, 0⟩
     [.startElement "span" [("class", "ocr_line")], .charData "x"]
     ⟨["x"], 1, [0], [], true⟩ (by decide)⟩

theorem pySliceIdx_of_nonneg_le {n i : ℤ} (h0 : 0 ≤ i) (hn : i ≤ n) :
    pySliceIdx n i = i := by
  unfold pySliceIdx
  split_ifs <;> omega

theorem pySliceIdx_of_ge {n i : ℤ} (h0 : 0 ≤ n) (hn : n ≤ i) :
    pySliceIdx n i = n := by
  unfold pySliceIdx
  split_ifs <;> omega

/-- Claim C6 counterexample: out-of-range and negative arguments to
textRange are silently clamped by Python slice semantics — the call
returns a value instead of failing loudly. -/
theorem claim6_counterexample :
    _getTextRange ⟨0, 0, "ab", 2, [], []⟩ 0 5 = "ab" ∧
    _getTextRange ⟨0, 0, "ab", 2, [], []⟩ (-1) 2 = "b" := by
  refine ⟨by decide, by decide⟩

/-- Claim C6 (amended): for in-range arguments textRange returns the
substring text[start:end]; an end beyond the story length is silently
clamped to the length (Python slice semantics), not an error. -/
theorem claim6_textRange :
    (∀ (p : HocrParser) (a b : ℤ), 0 ≤ a → a ≤ b → b ≤ (p.text.length : ℤ) →
      _getTextRange p a b =
        String.mk ((p.text.toList.drop a.toNat).take (b.toNat - a.toNat))) ∧
    (∀ (p : HocrParser) (a b : ℤ), (p.text.length : ℤ) < b →
      _getTextRange p a b = _getTextRange p a (p.text.length : ℤ)) := by
  constructor
  · intro p a b ha hab hble
    unfold _getTextRange pySlice
    rw [pySliceIdx_of_nonneg_le ha (le_trans hab hble),
        pySliceIdx_of_nonneg_le (le_trans ha hab) hble]
    have h5 : (b - a).toNat = b.toNat - a.toNat := by omega
    rw [h5]
  · intro p a b hb
    unfold _getTextRange pySlice
    have h0 : (0 : ℤ) ≤ (p.text.length : ℤ) := Int.natCast_nonneg _
    rw [pySliceIdx_of_ge h0 hb.le, pySliceIdx_of_ge h0 le_rfl]

/-- Claim C6 witness: the amended statement at concrete inputs. -/
theorem claim6_witness :
    _getTextRange ⟨0, 0, "ab", 2, [], []⟩ 0 2 = "ab" ∧
    _getTextRange ⟨0, 0, "ab", 2, [], []⟩ 0 5 = _getTextRange ⟨0, 0, "ab", 2, [], []⟩ 0 2 :=
  ⟨claim6_textRange.1 ⟨0, 0, "ab", 2, [], []⟩ 0 2 (by decide) (by decide) (by decide),
   claim6_textRange.2 ⟨0, 0, "ab", 2, [], []⟩ 0 5 (by decide)⟩

theorem lineOffsetsGo_bounds (tl o : Nat) :
    ∀ (l : List Nat) (st : Nat), st ≤ o → o ≤ tl →
      (lineOffsetsGo tl o st l).1 ≤ o ∧ o ≤ (lineOffsetsGo tl o st l).2 := by
  intro l
  induction l with
  | nil =>
    intro st h1 h2
    exact ⟨h1, h2⟩
  | cons e rest ih =>
    intro st h1 h2
    by_cases he : e > o
    · simp only [lineOffsetsGo, if_pos he]
      exact ⟨h1, he.le⟩
    · simp only [lineOffsetsGo, if_neg he]
      exact ih e (Nat.le_of_not_lt he) h2

theorem wordOffsetsGo_bounds (tl o : Nat) :
    ∀ (l : List OcrWord) (st : Nat), st ≤ o → o ≤ tl →
      (wordOffsetsGo tl o st l).1 ≤ o ∧ o ≤ (wordOffsetsGo tl o st l).2 := by
  intro l
  induction l with
  | nil =>
    intro st h1 h2
    exact ⟨h1, h2⟩
  | cons w rest ih =>
    intro st h1 h2
    by_cases he : w.offset > o
    · simp only [wordOffsetsGo, if_pos he]
      exact ⟨h1, he.le⟩
    · simp only [wordOffsetsGo, if_neg he]
      exact ih w.offset (Nat.le_of_not_lt he) h2

/-- Claim C7: for every offset o with 0 ≤ o ≤ storyLength, the line
range and the word range returned by the navigator both satisfy
start ≤ o ≤ end: every valid offset, boundary offsets and the terminal
offset included, resolves to a segment containing it. -/
theorem claim7_boundaryTotality (p : HocrParser) (o : Nat)
    (h : o ≤ _getStoryLength p) :
    ((_getLineOffsets p o).1 ≤ o ∧ o ≤ (_getLineOffsets p o).2) ∧
    ((_getWordOffsets p o).1 ≤ o ∧ o ≤ (_getWordOffsets p o).2) :=
  ⟨lineOffsetsGo_bounds p.textLen o p.lines 0 (Nat.zero_le o) h,
   wordOffsetsGo_bounds p.textLen o p.words 0 (Nat.zero_le o) h⟩

/-- Claim C7 witness: instantiated on a concrete two-character result
with one line boundary and one word, at the boundary offset 1. -/
theorem claim7_witness :
    ((1 : ℕ) ≤ _getStoryLength ⟨0, 0, "ab", 2, [1], [⟨0, 1, 2⟩]⟩) ∧
    (((_getLineOffsets ⟨0, 0, "ab", 2, [1], [⟨0, 1, 2⟩]⟩ 1).1 ≤ 1 ∧
        1 ≤ (_getLineOffsets ⟨0, 0, "ab", 2, [1], [⟨0, 1, 2⟩]⟩ 1).2) ∧
      ((_getWordOffsets ⟨0, 0, "ab", 2, [1], [⟨0, 1, 2⟩]⟩ 1).1 ≤ 1 ∧
        1 ≤ (_getWordOffsets ⟨0, 0, "ab", 2, [1], [⟨0, 1, 2⟩]⟩ 1).2)) :=
  ⟨by decide, claim7_boundaryTotality ⟨0, 0, "ab", 2, [1], [⟨0, 1, 2⟩]⟩ 1 (by decide)⟩

/-- A failed event run makes the `Init` constructor fail with the same
exception: no Recognition Result object is produced. -/
theorem hocrParseInit_events_error {leftC topC : ℚ} {events : List XmlEvent}
    {e : PyError}
    (h : runEvents (startElementInit ⟨leftC, topC⟩) initState events = .error e) :
    hocrParseInit (.ok events) leftC topC = .error e := by
  simp only [hocrParseInit]
  rw [h]

/-- A failed event run makes the `Flat` constructor fail with the same
exception. -/
theorem hocrParseFlat_events_error {leftC topC : ℚ} {events : List XmlEvent}
    {e : PyError}
    (h : runEvents (startElementFlat ⟨leftC, topC⟩) initState events = .error e) :
    hocrParseFlat (.ok events) leftC topC = .error e := by
  simp only [hocrParseFlat]
  rw [h]

/-- An event whose handler raises aborts the run right there. -/
theorem runEvents_error_after
    {se : ParserState → String → List (String × String) → Except PyError ParserState}
    {pre : List XmlEvent} {s : ParserState}
    (hpre : runEvents se initState pre = .ok s)
    {ev : XmlEvent} {e : PyError} (hev : step se s ev = .error e)
    (evs : List XmlEvent) :
    runEvents se initState (pre ++ ev :: evs) = .error e := by
  rw [runEvents_append, hpre]
  show runEvents se s (ev :: evs) = .error e
  unfold runEvents
  rw [hev]

/-- Claim C8 counterexample: the truncated document
`<div><span class="ocr_line">hi` is not well-formed XML, yet under
`parser.Parse(xml)` with the default `isfinal=False` expat accepts it
silently and delivers exactly the three prefix events below (no
end-element events, no exception); the constructor completes and a
Recognition Result with text "hi" IS returned — contradicting
"parsing fails with a MalformedMarkupError for every input that is not
well-formed XML" and "no partial Recognition Result is returned". -/
theorem claim8_counterexample :
    hocrParseInit (.ok [.startElement "div" [],
        .startElement "span" [("class", "ocr_line")], .charData "hi"]) 0 0 =
      .ok ⟨0, 0, "hi", 2, [0], []⟩ := by
  decide

/-- Claim C8 (amended): the parse fails with the malformed-markup error
exactly when expat raises on a markup error inside the consumed data —
not for every non-well-formed input, since the `isfinal=False` call
pattern accepts truncated documents; a recognized word element lacking
its title attribute, reached after a successfully processed prefix,
fails the parse with the missing-attribute error; in both failure cases
the constructor returns the error and no Recognition Result, while any
event stream the handlers process without raising — a truncated
document's prefix events included — yields a Recognition Result with
no well-formedness check of its own. -/
theorem claim8_parseFailures :
    (∀ leftC topC : ℚ, hocrParseInit (.error ()) leftC topC = .error .expatError) ∧
    (∀ (leftC topC : ℚ) (pre evs : List XmlEvent) (attrs : List (String × String))
        (s : ParserState),
      runEvents (startElementInit ⟨leftC, topC⟩) initState pre = .ok s →
      attrs.lookup "class" = some "ocr_word" →
      attrs.lookup "title" = none →
      hocrParseInit (.ok (pre ++ XmlEvent.startElement "span" attrs :: evs)) leftC topC =
        .error .attributeError) ∧
    (∀ (leftC topC : ℚ) (events : List XmlEvent) (s : ParserState),
      runEvents (startElementInit ⟨leftC, topC⟩) initState events = .ok s →
      hocrParseInit (.ok events) leftC topC =
        .ok ⟨leftC, topC, String.join s.textList, s.textLen, s.lines, s.words⟩) := by
  refine ⟨?_, ?_, ?_⟩
  · intro leftC topC
    rfl
  · intro leftC topC pre evs attrs s hpre hc ht
    refine hocrParseInit_events_error (runEvents_error_after hpre ?_ evs)
    exact startElementInit_missing_title hc ht
  · intro leftC topC events s h
    simp only [hocrParseInit]
    rw [h]

/-- Claim C8 witness: an expat-raised markup error, a one-element
document whose word span has no title attribute, and an event stream
processed without exception yielding a result. -/
theorem claim8_witness :
    hocrParseInit (.error ()) 0 0 = .error .expatError ∧
    hocrParseInit (.ok [.startElement "span" [("class", "ocr_word")]]) 0 0 =
      .error .attributeError ∧
    hocrParseInit (.ok [.charData "hi"]) 0 0 = .ok ⟨0, 0, "hi", 2, [], []⟩ :=
  ⟨claim8_parseFailures.1 0 0,
   claim8_parseFailures.2.1 0 0 [] [] [("class", "ocr_word")] initState rfl rfl rfl,
   claim8_parseFailures.2.2 0 0 [.charData "hi"] ⟨["hi"], 2, [], [], true⟩ (by decide)⟩

/-- Claim C9 counterexample: a verbatim fragment ending in a space
followed by a collapsed whitespace run produces two adjacent space
characters in the text ("b" then two spaces): the guard compares the
last appended fragment, not the last emitted character. -/
theorem claim9_counterexample :
    hocrParseInit (.ok [.charData "b ", .charData "\n"]) 0 0 =
      .ok ⟨0, 0, "b  ", 3, [], []⟩ ∧
    ("b  " : String).toList = ['b', ' ', ' '] := by
  refine ⟨by decide, by decide⟩

/-- Claim C9 (amended): a collapsed whitespace run is skipped exactly
when the last appended fragment is the one-character space string, so
the fragment list never holds two consecutive space fragments — but
adjacent space characters can still occur when a verbatim fragment ends
with a space. -/
theorem claim9_spaceCollapse :
    (∀ (s : ParserState) (data : String), pyIsSpace data = true →
      s.hasBlockHadContent = true →
      _charData s data =
        if s.textList.getLast? = some " " then s
        else { s with textList := s.textList ++ [" "], textLen := s.textLen + 1,
                      hasBlockHadContent := true }) ∧
    (∀ (P : Params) (events : List XmlEvent) (s : ParserState),
      runEvents (startElementInit P) initState events = .ok s →
      s.textList.Chain' (fun a b => ¬(a = " " ∧ b = " "))) := by
  constructor
  · intro s data h1 h2
    by_cases h3 : s.textList.getLast? = some " "
    · rw [if_pos h3]
      simp [_charData, h1, h2, h3]
    · rw [if_neg h3]
      simp [_charData, h1, h2, h3]
  · intro P events s h
    refine runEvents_preserve
      (Q := fun st => st.textList.Chain' (fun a b => ¬(a = " " ∧ b = " ")))
      ?_ ?_ events initState s h (by simp [initState])
    · intro st tag attrs st' hok hQ
      obtain ⟨-, htl, -⟩ := startElementInit_ok_shape hok
      exact htl ▸ hQ
    · intro st data hQ
      obtain ⟨-, -, hshape⟩ := _charData_shape st data
      rcases hshape with hsame | ⟨happ, hlast⟩ | ⟨happ, hdata⟩
      · exact hsame ▸ hQ
      · rw [happ, List.chain'_append]
        refine ⟨hQ, List.chain'_singleton _, ?_⟩
        intro x hx y hy
        simp only [List.head?_cons, Option.mem_def, Option.some.injEq] at hy
        subst hy
        rintro ⟨hx1, -⟩
        exact hlast (hx1 ▸ Option.mem_def.mp hx)
      · rw [happ, List.chain'_append]
        refine ⟨hQ, List.chain'_singleton _, ?_⟩
        intro x hx y hy
        simp only [List.head?_cons, Option.mem_def, Option.some.injEq] at hy
        subst hy
        rintro ⟨-, hy2⟩
        rw [hy2] at hdata
        exact absurd hdata (by decide)

/-- Claim C9 witness: the emission rule applied where the last fragment
is "b " (not the space string): the space is emitted. -/
theorem claim9_witness :
    pyIsSpace "\n" = true ∧
    _charData ⟨["b "], 2, [], [], true⟩ "\n" = ⟨["b ", " "], 3, [], [], true⟩ :=
  ⟨by decide,
   (claim9_spaceCollapse.1 ⟨["b "], 2, [], [], true⟩ "\n" (by decide) rfl).trans (by decide)⟩

/-- Claim C10: a span element without any class attribute makes the
parse fail with the lookup (KeyError) failure — under both parser
versions — once the element is reached; such a document never yields a
Recognition Result. -/
theorem claim10_missingClass :
    (∀ (leftC topC : ℚ) (pre evs : List XmlEvent) (attrs : List (String × String))
        (s : ParserState),
      runEvents (startElementInit ⟨leftC, topC⟩) initState pre = .ok s →
      attrs.lookup "class" = none →
      hocrParseInit (.ok (pre ++ XmlEvent.startElement "span" attrs :: evs)) leftC topC =
        .error .keyError) ∧
    (∀ (leftC topC : ℚ) (pre evs : List XmlEvent) (attrs : List (String × String))
        (s : ParserState),
      runEvents (startElementFlat ⟨leftC, topC⟩) initState pre = .ok s →
      attrs.lookup "class" = none →
      hocrParseFlat (.ok (pre ++ XmlEvent.startElement "span" attrs :: evs)) leftC topC =
        .error .keyError) := by
  constructor
  · intro leftC topC pre evs attrs s hpre hc
    refine hocrParseInit_events_error (runEvents_error_after hpre ?_ evs)
    exact startElementInit_missing_class hc
  · intro leftC topC pre evs attrs s hpre hc
    refine hocrParseFlat_events_error (runEvents_error_after hpre ?_ evs)
    exact startElementFlat_missing_class hc

/-- Claim C10 witness: a one-span document with only an id attribute
fails under both parser versions. -/
theorem claim10_witness :
    hocrParseInit (.ok [.startElement "span" [("id", "x")]]) 0 0 = .error .keyError ∧
    hocrParseFlat (.ok [.startElement "span" [("id", "x")]]) 0 0 = .error .keyError :=
  ⟨claim10_missingClass.1 0 0 [] [] [("id", "x")] initState rfl rfl,
   claim10_missingClass.2 0 0 [] [] [("id", "x")] initState rfl rfl⟩

end NvdaOcr
